import Mathlib

/-!
Verification of the Vici video editor timeline core (`TimelineManager` in
the timeline module, plus the application state it mutates).

Times and pixel coordinates are modelled as rationals (`ℚ`): the JavaScript
source computes with IEEE doubles, but every operation of the core is a
field expression (`+`, `-`, `*`, `/`, `max`, comparisons), so on rational
inputs the rational semantics is the exact mathematical content of the code.
Clip ids come from `Date.now()`; creation operations therefore take the
current clock value `now : Nat` as an explicit argument.
-/

/-- A timeline track. The source stores the track as one of the three
strings "video", "audio", "text". -/
inductive Track where
  | video
  | audio
  | text
deriving DecidableEq, Repr

/-- A clip record, as built by `addClip`, `addTextClip`, the drag-drop
handler and `splitClip`. Fields that some creation paths leave absent in
the JavaScript object (`thumbnail`, `trimStart`, `trimEnd`, the `type`
discriminant) are `Option`s. -/
structure Clip where
  id : Nat
  mediaId : Option Nat
  name : String
  kind : Option String
  track : Track
  startTime : ℚ
  duration : ℚ
  thumbnail : Option String
  trimStart : Option ℚ
  trimEnd : Option ℚ
deriving DecidableEq, Repr

/-- A media-library item, as consumed by `addClip` and by the drop
handler (the parsed `application/json` payload). -/
structure MediaItem where
  id : Nat
  name : String
  duration : ℚ
  thumbnail : String
deriving DecidableEq, Repr

/-- A text overlay, as consumed by `addTextClip`. -/
structure Overlay where
  id : Nat
  content : String
  startTime : ℚ
  duration : ℚ
deriving DecidableEq, Repr

/-- The part of `app.state` (plus the `TimelineManager` fields `zoom` and
`pixelsPerSecond`) that the timeline core reads and writes. `toasts`
records the advisory messages emitted through `app.showToast`, in order,
as (message, severity) pairs. -/
structure EditorState where
  clips : List Clip
  selectedClip : Option Nat
  currentTime : ℚ
  duration : ℚ
  zoom : Int
  pixelsPerSecond : ℚ
  toasts : List (String × String)
deriving DecidableEq, Repr

/-- `app.showToast(message, type)`: appends an advisory message. -/
def showToast (message type_ : String) (s : EditorState) : EditorState :=
  { s with toasts := s.toasts ++ [(message, type_)] }

/-- `updateZoom(zoomLevel)`: stores the zoom level and derives
`pixelsPerSecond = 20 + zoomLevel * 15`. -/
def updateZoom (zoomLevel : Int) (s : EditorState) : EditorState :=
  { s with zoom := zoomLevel, pixelsPerSecond := 20 + zoomLevel * 15 }

/-- `zoomIn()`: `updateZoom(Math.min(10, this.zoom + 1))`. -/
def zoomIn (s : EditorState) : EditorState :=
  updateZoom (min 10 (s.zoom + 1)) s

/-- `zoomOut()`: `updateZoom(Math.max(1, this.zoom - 1))`. -/
def zoomOut (s : EditorState) : EditorState :=
  updateZoom (max 1 (s.zoom - 1)) s

/-- `setZoom(level)`: `updateZoom(level)` with no clamping. -/
def setZoom (level : Int) (s : EditorState) : EditorState :=
  updateZoom level s

/-- The pixels-per-second density derived from a zoom level by
`updateZoom`: `20 + (zoomLevel * 15)`. -/
def pixelsPerSecondOfZoom (z : Int) : ℚ :=
  20 + z * 15

/-- Seconds to pixels at a zoom level, as the renderer computes clip
geometry: `clip.startTime * this.pixelsPerSecond`. -/
def timeToPixels (t : ℚ) (z : Int) : ℚ :=
  t * pixelsPerSecondOfZoom z

/-- Pixels to seconds at a zoom level, as the drag handler computes times:
`newLeft / this.pixelsPerSecond`. -/
def pixelsToTime (x : ℚ) (z : Int) : ℚ :=
  x / pixelsPerSecondOfZoom z

/-- A clip's end time `startTime + duration` (the quantity the source
compares in `getNextAvailablePosition` and bounds-checks in `splitClip`). -/
def clipEndTime (c : Clip) : ℚ :=
  c.startTime + c.duration

/-- The JavaScript reduce in `getNextAvailablePosition`:
`trackClips.reduce((a, b) => (a.startTime + a.duration) > (b.startTime + b.duration) ? a : b)`,
with `a` the accumulator seeded by the first element. -/
def lastByEnd (a : Clip) (l : List Clip) : Clip :=
  l.foldl (fun a b => if clipEndTime b < clipEndTime a then a else b) a

/-- `getNextAvailablePosition(track)`: filters the clips of `track`;
returns 0 when there are none, otherwise the end time of the clip the
reduce selects. -/
def getNextAvailablePosition (clips : List Clip) (track : Track) : ℚ :=
  match clips.filter (fun c => c.track = track) with
  | [] => 0
  | c :: rest => clipEndTime (lastByEnd c rest)

/-- `addClip(mediaItem)`: builds a clip on the video track at the next
available position, pushes it, and toasts success. `now` is the value of
`Date.now()` at the call. -/
def addClip (now : Nat) (mediaItem : MediaItem) (s : EditorState) : EditorState :=
  let clip : Clip :=
    { id := now
      mediaId := some mediaItem.id
      name := mediaItem.name
      kind := none
      track := Track.video
      startTime := getNextAvailablePosition s.clips Track.video
      duration := mediaItem.duration
      thumbnail := some mediaItem.thumbnail
      trimStart := some 0
      trimEnd := some 0 }
  showToast "Clip added to timeline" "success" { s with clips := s.clips ++ [clip] }

/-- `addTextClip(overlay)`: builds a text-track clip from an overlay
(reusing the overlay's id) and pushes it; no toast. -/
def addTextClip (overlay : Overlay) (s : EditorState) : EditorState :=
  let clip : Clip :=
    { id := overlay.id
      mediaId := none
      name := (overlay.content.take 20) ++ "..."
      kind := some "text"
      track := Track.text
      startTime := overlay.startTime
      duration := overlay.duration
      thumbnail := none
      trimStart := none
      trimEnd := none }
  { s with clips := s.clips ++ [clip] }

/-- The drop handler in `setupDragDrop`: builds a clip on the target track
(video or audio) at `Math.max(0, dropTime)` where
`dropTime = dropX / this.pixelsPerSecond`, and pushes it. `now` is
`Date.now()` at the drop. -/
def dropClip (now : Nat) (data : MediaItem) (track : Track) (dropX : ℚ)
    (s : EditorState) : EditorState :=
  let dropTime := dropX / s.pixelsPerSecond
  let clip : Clip :=
    { id := now
      mediaId := some data.id
      name := data.name
      kind := none
      track := track
      startTime := max 0 dropTime
      duration := data.duration
      thumbnail := some data.thumbnail
      trimStart := none
      trimEnd := none }
  { s with clips := s.clips ++ [clip] }

/-- One `mousemove` step of `onDrag`: with `newLeft` the pixel offset
`e.clientX - trackRect.left - this.dragOffset`, the dragged clip's start
becomes `Math.max(0, newLeft / this.pixelsPerSecond)`. -/
def onDrag (pps : ℚ) (c : Clip) (newLeft : ℚ) : Clip :=
  { c with startTime := max 0 (newLeft / pps) }

/-- The trim-handle side fixed at `startTrim`. -/
inductive TrimSide where
  | left
  | right
deriving DecidableEq, Repr

/-- One `mousemove` step of the `onTrim` closure created by `startTrim`:
`delta` is `moveE.clientX - startX`; `startWidth = clip.duration * pps`
and `startLeft = clip.startTime * pps` are the session-start geometry of
the clip being trimmed. Left side: the new left edge is
`Math.max(0, startLeft + delta)` and the new width `startWidth - delta`,
applied only when `newWidth > 30`. Right side: the new width is
`Math.max(30, startWidth + delta)`, always applied. -/
def onTrim (pps : ℚ) (side : TrimSide) (c : Clip) (delta : ℚ) : Clip :=
  let startWidth := c.duration * pps
  let startLeft := c.startTime * pps
  match side with
  | TrimSide.left =>
    let newLeft := max 0 (startLeft + delta)
    let newWidth := startWidth - delta
    if 30 < newWidth then
      { c with startTime := newLeft / pps, duration := newWidth / pps }
    else
      c
  | TrimSide.right =>
    let newWidth := max 30 (startWidth + delta)
    { c with duration := newWidth / pps }

/-- `splitClip()`: reads the selection and the playhead time from state.
No selection (JavaScript falsy: `null` or id `0`) toasts a warning; a
selected id absent from the clip list returns silently; a playhead at or
outside the selected clip's interval toasts a warning; otherwise the
selected clip is truncated at the playhead and a second clip covering the
remainder is pushed, copying the original's other fields, with id
`Date.now()` (`now`). -/
def splitClip (now : Nat) (s : EditorState) : EditorState :=
  let fail := showToast "Select a clip to split" "warning" s
  match s.selectedClip with
  | none => fail
  | some selectedId =>
    if selectedId = 0 then fail
    else
      match s.clips.findIdx? (fun c => c.id == selectedId) with
      | none => s
      | some clipIndex =>
        match s.clips[clipIndex]? with
        | none => s
        | some clip =>
          let splitTime := s.currentTime
          if splitTime ≤ clip.startTime ∨ clip.startTime + clip.duration ≤ splitTime then
            showToast "Move playhead inside clip to split" "warning" s
          else
            let splitPoint := splitTime - clip.startTime
            let newClip : Clip :=
              { clip with
                id := now
                startTime := splitTime
                duration := clip.duration - splitPoint }
            let s1 :=
              { s with clips :=
                  (s.clips.set clipIndex { clip with duration := splitPoint }) ++ [newClip] }
            showToast "Clip split" "success" s1

/-- A zoom operation available to the UI: the zoom-in button, the zoom-out
button, or the zoom slider (`setZoom(parseInt(slider.value))`). -/
inductive ZoomOp where
  | zin
  | zout
  | zset (level : Int)
deriving DecidableEq, Repr

/-- Apply one zoom operation. -/
def applyZoomOp (s : EditorState) (op : ZoomOp) : EditorState :=
  match op with
  | ZoomOp.zin => zoomIn s
  | ZoomOp.zout => zoomOut s
  | ZoomOp.zset level => setZoom level s

/-- Apply a sequence of zoom operations, left to right. -/
def applyZoomOps (ops : List ZoomOp) (s : EditorState) : EditorState :=
  ops.foldl applyZoomOp s

/-- The application's initial state (`ViciApp` constructor: empty clip
list, no selection, time and duration 0, zoom 5, hence
`pixelsPerSecond = 95` after `initRuler`). -/
def initialState : EditorState :=
  { clips := []
    selectedClip := none
    currentTime := 0
    duration := 0
    zoom := 5
    pixelsPerSecond := 95
    toasts := [] }

/-- A concrete media clip used to instantiate theorems: spans [1, 2). -/
def sampleClip : Clip :=
  { id := 1
    mediaId := some 1
    name := "a"
    kind := none
    track := Track.video
    startTime := 1
    duration := 1
    thumbnail := none
    trimStart := some 0
    trimEnd := some 0 }

/-- C5: for zoom levels in [1,10], `pixelsPerSecond` is `20 + z * 15` and
strictly increasing in the level, and converting a time to pixels and back
at the same zoom returns the time exactly (the source multiplies by and
divides by the same nonzero `pixelsPerSecond`). -/
theorem pixels_seconds_roundtrip :
    (∀ z : Int, pixelsPerSecondOfZoom z = 20 + z * 15) ∧
    (∀ z1 z2 : Int, 1 ≤ z1 → z2 ≤ 10 → z1 < z2 →
      pixelsPerSecondOfZoom z1 < pixelsPerSecondOfZoom z2) ∧
    (∀ (t : ℚ) (z : Int), 1 ≤ z → z ≤ 10 →
      pixelsToTime (timeToPixels t z) z = t) := by
  refine ⟨fun z => rfl, ?_, ?_⟩
  · intro z1 z2 _ _ hlt
    have h : (z1 : ℚ) < (z2 : ℚ) := by exact_mod_cast hlt
    unfold pixelsPerSecondOfZoom
    nlinarith
  · intro t z hz1 _
    have h1 : (1 : ℚ) ≤ (z : ℚ) := by exact_mod_cast hz1
    have hpos : (0 : ℚ) < pixelsPerSecondOfZoom z := by
      unfold pixelsPerSecondOfZoom; nlinarith
    unfold pixelsToTime timeToPixels
    exact mul_div_cancel_right₀ t hpos.ne'

theorem pixels_seconds_roundtrip_witness :
    pixelsPerSecondOfZoom 2 < pixelsPerSecondOfZoom 7 ∧
    pixelsToTime (timeToPixels 3 5) 5 = 3 :=
  ⟨pixels_seconds_roundtrip.2.1 2 7 (by decide) (by decide) (by decide),
   pixels_seconds_roundtrip.2.2 3 5 (by decide) (by decide)⟩

/-- C9: a drag step sets the dragged clip's start time to exactly
`max 0 (requested pixel offset / pixelsPerSecond)` — clamping at 0 with no
other constraint and no error — leaving its other fields alone, so the
result is never negative; the external drag-and-drop handler likewise
places the dropped clip at `max 0 dropTime`. -/
theorem moveClip_clamps_to_nonneg (pps : ℚ) (c : Clip) (newLeft : ℚ)
    (now : Nat) (data : MediaItem) (track : Track) (dropX : ℚ)
    (s : EditorState) :
    (onDrag pps c newLeft).startTime = max 0 (newLeft / pps) ∧
    0 ≤ (onDrag pps c newLeft).startTime ∧
    (onDrag pps c newLeft).duration = c.duration ∧
    (onDrag pps c newLeft).id = c.id ∧
    (onDrag pps c newLeft).track = c.track ∧
    ∃ nc : Clip, (dropClip now data track dropX s).clips = s.clips ++ [nc] ∧
      nc.startTime = max 0 (dropX / s.pixelsPerSecond) ∧ 0 ≤ nc.startTime := by
  refine ⟨rfl, le_max_left _ _, rfl, rfl, rfl, ?_⟩
  exact ⟨_, rfl, rfl, le_max_left _ _⟩

/-- C7 fails as stated: `setZoom` passes its argument to `updateZoom`
without clamping, so from the in-bounds initial state (zoom 5) the single
operation `setZoom 11` leaves the stored zoom at 11, outside [1,10]. -/
theorem setZoom_escapes_bounds :
    1 ≤ initialState.zoom ∧ initialState.zoom ≤ 10 ∧
    (applyZoomOps [ZoomOp.zset 11] initialState).zoom = 11 ∧
    ¬ (applyZoomOps [ZoomOp.zset 11] initialState).zoom ≤ 10 := by
  decide

/-- One zoom operation preserves the [1,10] zoom bound, provided a
`setZoom` level is itself in [1,10] (`zoomIn` clamps at 10, `zoomOut`
clamps at 1, `setZoom` stores its argument unchanged). -/
theorem applyZoomOp_bounds (s : EditorState) (op : ZoomOp)
    (h1 : 1 ≤ s.zoom) (h2 : s.zoom ≤ 10)
    (hset : ∀ l : Int, op = ZoomOp.zset l → 1 ≤ l ∧ l ≤ 10) :
    1 ≤ (applyZoomOp s op).zoom ∧ (applyZoomOp s op).zoom ≤ 10 := by
  cases op with
  | zin =>
    simp only [applyZoomOp, zoomIn, updateZoom]
    constructor
    · exact le_min (by norm_num) (by omega)
    · exact min_le_left _ _
  | zout =>
    simp only [applyZoomOp, zoomOut, updateZoom]
    constructor
    · exact le_max_left _ _
    · exact max_le (by norm_num) (by omega)
  | zset l =>
    simp only [applyZoomOp, setZoom, updateZoom]
    exact hset l rfl

/-- C7 amended: the zoom level stays an integer in [1,10] across any
sequence of `zoomIn`, `zoomOut` and `setZoom` calls, provided every
`setZoom` in the sequence is called with a level in [1,10] (as the UI
slider, bounded 1..10, guarantees); an unrestricted `setZoom` can store
any level. -/
theorem zoom_bounds_invariant (s : EditorState) (ops : List ZoomOp)
    (h1 : 1 ≤ s.zoom) (h2 : s.zoom ≤ 10)
    (hset : ∀ l : Int, ZoomOp.zset l ∈ ops → 1 ≤ l ∧ l ≤ 10) :
    1 ≤ (applyZoomOps ops s).zoom ∧ (applyZoomOps ops s).zoom ≤ 10 := by
  induction ops generalizing s with
  | nil => exact ⟨h1, h2⟩
  | cons op rest ih =>
    have hop := applyZoomOp_bounds s op h1 h2
      (fun l hl => hset l (by simp [hl]))
    exact ih (applyZoomOp s op) hop.1 hop.2
      (fun l hl => hset l (List.mem_cons_of_mem _ hl))

theorem zoom_bounds_invariant_witness :
    1 ≤ (applyZoomOps [ZoomOp.zin, ZoomOp.zset 3, ZoomOp.zout] initialState).zoom ∧
    (applyZoomOps [ZoomOp.zin, ZoomOp.zset 3, ZoomOp.zout] initialState).zoom ≤ 10 :=
  zoom_bounds_invariant initialState [ZoomOp.zin, ZoomOp.zset 3, ZoomOp.zout]
    (by decide) (by decide)
    (by intro l hl; simp at hl; subst hl; decide)

/-- C2 fails as stated: a right trim whose resulting width would drop
below 30 pixels is clamped to the 30-pixel floor, not rejected. At
`pixelsPerSecond = 50`, `sampleClip` (duration 1s, width 50px) trimmed on
the right by -40px would yield width 10 < 30; the code clamps the width to
30 and sets the duration to 30/50 = 3/5 s — the clip changes, so the trim
is not a no-op. -/
theorem right_trim_clamps_below_floor :
    (onTrim 50 TrimSide.right sampleClip (-40)).duration = 3 / 5 ∧
    onTrim 50 TrimSide.right sampleClip (-40) ≠ sampleClip := by
  have hdur : (onTrim 50 TrimSide.right sampleClip (-40)).duration = 3 / 5 := by
    simp only [onTrim, sampleClip]
    rw [show ((1 : ℚ) * 50 + -40) = 10 by norm_num]
    rw [max_eq_left (by norm_num : (10 : ℚ) ≤ 30)]
    norm_num
  refine ⟨hdur, fun heq => ?_⟩
  rw [heq] at hdur
  norm_num [sampleClip] at hdur

/-- C2 amended: a left trim whose resulting width would be at most 30
pixels is rejected as a no-op (the clip's startTime and duration are left
unchanged); an accepted left trim yields duration strictly greater than
30/pixelsPerSecond; a right trim is instead clamped — its width becomes
`max 30 (startWidth + delta)` — so its resulting duration is at least
30/pixelsPerSecond. Hence no trim step ever sets a duration below the
floor `minDurationSeconds = 30 / pixelsPerSecond`. -/
theorem trim_floor_behavior (pps : ℚ) (c : Clip) (delta : ℚ) (h : 0 < pps) :
    (c.duration * pps - delta ≤ 30 → onTrim pps TrimSide.left c delta = c) ∧
    (30 < c.duration * pps - delta →
      (onTrim pps TrimSide.left c delta).duration = (c.duration * pps - delta) / pps ∧
      30 / pps < (onTrim pps TrimSide.left c delta).duration) ∧
    ((onTrim pps TrimSide.right c delta).duration
        = max 30 (c.duration * pps + delta) / pps ∧
      30 / pps ≤ (onTrim pps TrimSide.right c delta).duration) := by
  refine ⟨?_, ?_, ?_, ?_⟩
  · intro hle
    simp only [onTrim]
    rw [if_neg (by linarith)]
  · intro hlt
    simp only [onTrim]
    rw [if_pos hlt]
    exact ⟨rfl, (div_lt_div_iff_of_pos_right h).mpr hlt⟩
  · rfl
  · exact (div_le_div_iff_of_pos_right h).mpr (le_max_left _ _)

theorem trim_floor_behavior_witness :
    (sampleClip.duration * 50 - 60 ≤ 30 →
      onTrim 50 TrimSide.left sampleClip 60 = sampleClip) ∧
    (30 < sampleClip.duration * 50 - 60 →
      (onTrim 50 TrimSide.left sampleClip 60).duration
          = (sampleClip.duration * 50 - 60) / 50 ∧
      30 / 50 < (onTrim 50 TrimSide.left sampleClip 60).duration) ∧
    ((onTrim 50 TrimSide.right sampleClip 60).duration
        = max 30 (sampleClip.duration * 50 + 60) / 50 ∧
      30 / 50 ≤ (onTrim 50 TrimSide.right sampleClip 60).duration) :=
  trim_floor_behavior 50 sampleClip 60 (by norm_num)

/-- C6 fails as stated: when a left trim drags the left edge past pixel 0,
the edge is clamped at 0 but the width still grows by the full pointer
delta, so the clip's end time moves. At `pixelsPerSecond = 50`,
`sampleClip` spans [1,2) (left edge 50px, width 50px); delta -100 clamps
the new left edge to `max 0 (-50) = 0` while the width becomes 150px, an
accepted trim (150 > 30), giving a clip spanning [0,3): the end moved
from 2 to 3. -/
theorem left_trim_moves_end_when_clamped :
    clipEndTime sampleClip = 2 ∧
    onTrim 50 TrimSide.left sampleClip (-100) ≠ sampleClip ∧
    clipEndTime (onTrim 50 TrimSide.left sampleClip (-100)) = 3 := by
  have h3 : clipEndTime (onTrim 50 TrimSide.left sampleClip (-100)) = 3 := by
    simp only [onTrim, sampleClip]
    rw [if_pos (by norm_num : (30 : ℚ) < 1 * 50 - -100)]
    simp only [clipEndTime]
    rw [show ((1 : ℚ) * 50 + -100) = -50 by norm_num]
    rw [max_eq_left (by norm_num : (-50 : ℚ) ≤ 0)]
    norm_num
  refine ⟨by norm_num [clipEndTime, sampleClip], fun heq => ?_, h3⟩
  rw [heq] at h3
  norm_num [clipEndTime, sampleClip] at h3

/-- C6 amended: a right trim changes only the duration (startTime, id and
track are untouched). An accepted left trim preserves the clip's end time
provided the new left edge `startLeft + delta` is not clamped at 0; when
the pointer would push the left edge below pixel 0, the edge clamps to 0
while the width still becomes `startWidth - delta`, so the end time
becomes `(startWidth - delta) / pixelsPerSecond` instead of the original
end. -/
theorem trim_moves_one_boundary (pps : ℚ) (c : Clip) (delta : ℚ) (h : 0 < pps) :
    ((onTrim pps TrimSide.right c delta).startTime = c.startTime ∧
     (onTrim pps TrimSide.right c delta).id = c.id ∧
     (onTrim pps TrimSide.right c delta).track = c.track) ∧
    (0 ≤ c.startTime * pps + delta → 30 < c.duration * pps - delta →
      clipEndTime (onTrim pps TrimSide.left c delta) = clipEndTime c) ∧
    (c.startTime * pps + delta < 0 → 30 < c.duration * pps - delta →
      (onTrim pps TrimSide.left c delta).startTime = 0 ∧
      clipEndTime (onTrim pps TrimSide.left c delta)
        = (c.duration * pps - delta) / pps) := by
  refine ⟨⟨rfl, rfl, rfl⟩, ?_, ?_⟩
  · intro h0 hacc
    simp only [onTrim]
    rw [if_pos hacc]
    simp only [clipEndTime]
    rw [max_eq_right h0]
    field_simp
    ring
  · intro hneg hacc
    simp only [onTrim]
    rw [if_pos hacc]
    simp only [clipEndTime]
    rw [max_eq_left hneg.le]
    constructor
    · simp [zero_div]
    · simp [zero_div]

theorem trim_moves_one_boundary_witness :
    ((onTrim 50 TrimSide.right sampleClip 10).startTime = sampleClip.startTime ∧
     (onTrim 50 TrimSide.right sampleClip 10).id = sampleClip.id ∧
     (onTrim 50 TrimSide.right sampleClip 10).track = sampleClip.track) ∧
    (0 ≤ sampleClip.startTime * 50 + 10 → 30 < sampleClip.duration * 50 - 10 →
      clipEndTime (onTrim 50 TrimSide.left sampleClip 10) = clipEndTime sampleClip) ∧
    (sampleClip.startTime * 50 + 10 < 0 → 30 < sampleClip.duration * 50 - 10 →
      (onTrim 50 TrimSide.left sampleClip 10).startTime = 0 ∧
      clipEndTime (onTrim 50 TrimSide.left sampleClip 10)
        = (sampleClip.duration * 50 - 10) / 50) :=
  trim_moves_one_boundary 50 sampleClip 10 (by norm_num)

/-- The clip the JavaScript reduce selects has the maximum end time: its
end is the fold of `max` over all the ends. -/
theorem clipEndTime_lastByEnd (a : Clip) (l : List Clip) :
    clipEndTime (lastByEnd a l) = (l.map clipEndTime).foldl max (clipEndTime a) := by
  induction l generalizing a with
  | nil => rfl
  | cons b rest ih =>
    have step : lastByEnd a (b :: rest)
        = lastByEnd (if clipEndTime b < clipEndTime a then a else b) rest := rfl
    rw [step, ih]
    simp only [List.map_cons, List.foldl_cons]
    congr 1
    split_ifs with h
    · exact (max_eq_left h.le).symm
    · exact (max_eq_right (le_of_not_lt h)).symm

/-- A concrete media item used to instantiate theorems. -/
def sampleMedia : MediaItem :=
  { id := 7, name := "m", duration := 10, thumbnail := "t" }

/-- C3: `addClip` appends exactly one clip, on the video track, with the
requested duration, placed at `getNextAvailablePosition`, which is 0 when
the track holds no clips and otherwise the maximum of
`startTime + duration` over the track's clips (a `max`-fold over the
filtered list, seeded by its first element). The empty-track and
second-clip scenarios are instances of the two cases. -/
theorem addClip_appends_at_track_end (now : Nat) (m : MediaItem) (s : EditorState) :
    ∃ c : Clip, (addClip now m s).clips = s.clips ++ [c] ∧
      c.track = Track.video ∧ c.duration = m.duration ∧
      c.startTime = getNextAvailablePosition s.clips Track.video ∧
      (s.clips.filter (fun x => x.track = Track.video) = [] → c.startTime = 0) ∧
      (∀ (c0 : Clip) (rest : List Clip),
        s.clips.filter (fun x => x.track = Track.video) = c0 :: rest →
        c.startTime = (rest.map clipEndTime).foldl max (clipEndTime c0)) := by
  refine ⟨_, rfl, rfl, rfl, rfl, ?_, ?_⟩
  · intro hempty
    simp only [getNextAvailablePosition, hempty]
  · intro c0 rest hcons
    simp only [getNextAvailablePosition, hcons]
    exact clipEndTime_lastByEnd c0 rest

theorem addClip_appends_at_track_end_witness :
    ∃ c : Clip, (addClip 100 sampleMedia initialState).clips
        = initialState.clips ++ [c] ∧
      c.track = Track.video ∧ c.duration = sampleMedia.duration ∧
      c.startTime = getNextAvailablePosition initialState.clips Track.video ∧
      (initialState.clips.filter (fun x => x.track = Track.video) = [] →
        c.startTime = 0) ∧
      (∀ (c0 : Clip) (rest : List Clip),
        initialState.clips.filter (fun x => x.track = Track.video) = c0 :: rest →
        c.startTime = (rest.map clipEndTime).foldl max (clipEndTime c0)) :=
  addClip_appends_at_track_end 100 sampleMedia initialState

/-- C1: splitting the selected clip at an interior playhead time `t`
truncates the original clip (in place, other fields untouched) to
duration `t - startTime`, appends a new clip that copies every other
field of the original with `startTime = t` and
`duration = originalDuration - (t - startTime)`, which equals the
original end minus `t`; the two resulting durations sum to the original
duration. -/
theorem splitClip_success (now : Nat) (s : EditorState) (i : Nat) (clip : Clip)
    (hsel : s.selectedClip = some clip.id) (hid : clip.id ≠ 0)
    (hfind : s.clips.findIdx? (fun c => c.id == clip.id) = some i)
    (hget : s.clips[i]? = some clip)
    (hlo : clip.startTime < s.currentTime)
    (hhi : s.currentTime < clip.startTime + clip.duration) :
    (splitClip now s).clips
      = s.clips.set i { clip with duration := s.currentTime - clip.startTime }
        ++ [{ clip with
                id := now
                startTime := s.currentTime
                duration := clip.duration - (s.currentTime - clip.startTime) }] ∧
    clip.duration - (s.currentTime - clip.startTime)
      = clip.startTime + clip.duration - s.currentTime ∧
    (s.currentTime - clip.startTime)
      + (clip.duration - (s.currentTime - clip.startTime)) = clip.duration := by
  refine ⟨?_, by ring, by ring⟩
  simp only [splitClip, hsel, hfind, hget]
  rw [if_neg hid]
  rw [if_neg ((not_or).mpr ⟨not_le.mpr hlo, not_le.mpr hhi⟩)]
  rfl

/-- A concrete clip spanning [0,10) on the video track, id 1. -/
def clipA : Clip :=
  { sampleClip with startTime := 0, duration := 10 }

/-- A state holding `clipA`, selected, with the playhead at 4s. -/
def splitReadyState : EditorState :=
  { initialState with
      clips := [clipA]
      selectedClip := some 1
      currentTime := 4 }

theorem splitClip_success_witness :
    (splitClip 55 splitReadyState).clips
      = splitReadyState.clips.set 0
          { clipA with duration := splitReadyState.currentTime - clipA.startTime }
        ++ [{ clipA with
                id := 55
                startTime := splitReadyState.currentTime
                duration := clipA.duration
                  - (splitReadyState.currentTime - clipA.startTime) }] ∧
    clipA.duration - (splitReadyState.currentTime - clipA.startTime)
      = clipA.startTime + clipA.duration - splitReadyState.currentTime ∧
    (splitReadyState.currentTime - clipA.startTime)
      + (clipA.duration - (splitReadyState.currentTime - clipA.startTime))
      = clipA.duration :=
  splitClip_success 55 splitReadyState 0 clipA rfl (by decide) rfl rfl
    (by norm_num [clipA, sampleClip, splitReadyState, initialState])
    (by norm_num [clipA, sampleClip, splitReadyState, initialState])

/-- C4: `splitClip` with no selection, or with the playhead at or outside
the selected clip's interval, leaves the clip list unchanged and reports
the failure by appending a user-facing warning toast (no exception is
modelled; the function is total). -/
theorem splitClip_noop_on_failure (now : Nat) (s : EditorState) :
    (s.selectedClip = none →
      (splitClip now s).clips = s.clips ∧
      (splitClip now s).toasts
        = s.toasts ++ [("Select a clip to split", "warning")]) ∧
    (∀ (i : Nat) (clip : Clip),
      s.selectedClip = some clip.id → clip.id ≠ 0 →
      s.clips.findIdx? (fun c => c.id == clip.id) = some i →
      s.clips[i]? = some clip →
      (s.currentTime ≤ clip.startTime ∨
        clip.startTime + clip.duration ≤ s.currentTime) →
      (splitClip now s).clips = s.clips ∧
      (splitClip now s).toasts
        = s.toasts ++ [("Move playhead inside clip to split", "warning")]) := by
  constructor
  · intro hsel
    have h1 : splitClip now s = showToast "Select a clip to split" "warning" s := by
      simp only [splitClip, hsel]
    rw [h1]
    exact ⟨rfl, rfl⟩
  · intro i clip hsel hid hfind hget hout
    simp only [splitClip, hsel, hfind, hget]
    rw [if_neg hid]
    rw [if_pos hout]
    exact ⟨rfl, rfl⟩

/-- A state like `splitReadyState` but with the playhead at 20s, outside
the selected clip's interval [0,10). -/
def splitOutOfBoundsState : EditorState :=
  { splitReadyState with currentTime := 20 }

theorem splitClip_noop_on_failure_witness :
    ((splitClip 77 splitOutOfBoundsState).clips = splitOutOfBoundsState.clips ∧
      (splitClip 77 splitOutOfBoundsState).toasts
        = splitOutOfBoundsState.toasts
          ++ [("Move playhead inside clip to split", "warning")]) ∧
    ((splitClip 77 { initialState with selectedClip := none }).clips
        = initialState.clips ∧
      (splitClip 77 { initialState with selectedClip := none }).toasts
        = initialState.toasts ++ [("Select a clip to split", "warning")]) :=
  ⟨(splitClip_noop_on_failure 77 splitOutOfBoundsState).2 0 clipA rfl (by decide)
      rfl rfl
      (Or.inr (by norm_num [clipA, sampleClip, splitOutOfBoundsState,
        splitReadyState, initialState])),
    (splitClip_noop_on_failure 77 { initialState with selectedClip := none }).1 rfl⟩

/-- If no clip's id is `cid`, `findIdx?` for `cid` finds nothing,
whatever the start index. -/
theorem findIdx_go_none_of_absent (l : List Clip) (cid : Nat) (i : Nat)
    (h : ∀ c ∈ l, c.id ≠ cid) :
    List.findIdx? (fun c => c.id == cid) l i = none := by
  induction l generalizing i with
  | nil => rfl
  | cons a rest ih =>
    rw [List.findIdx?_cons]
    rw [if_neg (by simp only [beq_iff_eq]; exact h a (List.mem_cons_self a rest))]
    exact ih (i + 1) (fun c hc => h c (List.mem_cons_of_mem a hc))

/-- If no clip's id is `cid`, `findIdx?` for `cid` finds nothing. -/
theorem findIdx_none_of_absent (l : List Clip) (cid : Nat)
    (h : ∀ c ∈ l, c.id ≠ cid) :
    l.findIdx? (fun c => c.id == cid) = none :=
  findIdx_go_none_of_absent l cid 0 h

/-- C10: a truthy selected id that matches no clip in the list makes
`splitClip` return the state unchanged — no clip mutation and, unlike the
no-selection and out-of-bounds failures, no toast. (A selected id of 0 is
JavaScript-falsy and is handled as "no selection" instead; real ids are
`Date.now()` timestamps, which are nonzero.) -/
theorem splitClip_stale_selection_silent (now : Nat) (s : EditorState)
    (cid : Nat) (hsel : s.selectedClip = some cid) (hid : cid ≠ 0)
    (habsent : ∀ c ∈ s.clips, c.id ≠ cid) :
    splitClip now s = s := by
  simp only [splitClip, hsel]
  rw [if_neg hid]
  rw [findIdx_none_of_absent s.clips cid habsent]

theorem splitClip_stale_selection_silent_witness :
    splitClip 77 { initialState with selectedClip := some 999 }
      = { initialState with selectedClip := some 999 } :=
  splitClip_stale_selection_silent 77 _ 999 rfl (by decide)
    (by intro c hc; simp [initialState] at hc)

/-- C8 fails as stated: ids come from `Date.now()`, so two `addClip`
calls within the same millisecond (here both with clock value 100) assign
the same id to both clips — the second creation does not avoid ids
already in the store. -/
theorem duplicate_ids_same_timestamp :
    ((addClip 100 sampleMedia (addClip 100 sampleMedia initialState)).clips.map
        Clip.id) = [100, 100] ∧
    ¬ ((addClip 100 sampleMedia (addClip 100 sampleMedia initialState)).clips.map
        Clip.id).Nodup := by
  have h : ((addClip 100 sampleMedia (addClip 100 sampleMedia initialState)).clips.map
      Clip.id) = [100, 100] := rfl
  exact ⟨h, by rw [h]; decide⟩

/-- Appending a clip with a fresh id preserves distinctness of the ids. -/
theorem nodup_push (l : List Clip) (c : Clip)
    (h : (l.map Clip.id).Nodup) (hfresh : c.id ∉ l.map Clip.id) :
    ((l ++ [c]).map Clip.id).Nodup := by
  rw [List.map_append, List.nodup_append]
  refine ⟨h, List.nodup_singleton _, ?_⟩
  intro a ha hb
  simp only [List.map_cons, List.map_nil, List.mem_singleton] at hb
  subst hb
  exact hfresh ha

/-- Writing back the value already stored at index `i` is the identity. -/
theorem set_getElem_self (l : List Nat) (i : Nat) (a : Nat)
    (h : l[i]? = some a) : l.set i a = l := by
  induction l generalizing i with
  | nil => simp at h
  | cons b rest ih =>
    cases i with
    | zero => simp at h; simp [h]
    | succ j => simp at h ⊢; exact ih j h

/-- `splitClip` either leaves the clip list unchanged (any failure
branch) or truncates the found clip in place and appends the remainder
clip, whose id is `now`. -/
theorem splitClip_clips_cases (now : Nat) (s : EditorState) :
    (splitClip now s).clips = s.clips ∨
    ∃ (i : Nat) (clip : Clip), s.clips[i]? = some clip ∧
      (splitClip now s).clips
        = s.clips.set i { clip with duration := s.currentTime - clip.startTime }
          ++ [{ clip with
                  id := now
                  startTime := s.currentTime
                  duration := clip.duration - (s.currentTime - clip.startTime) }] := by
  simp only [splitClip]
  split
  · exact Or.inl rfl
  · split
    · exact Or.inl rfl
    · split
      · exact Or.inl rfl
      · next y idx hfind =>
        split
        · exact Or.inl rfl
        · next z clip hget =>
          split
          · exact Or.inl rfl
          · exact Or.inr ⟨idx, clip, hget, rfl⟩

/-- C8 amended: a creation operation assigns the new clip the creation
event's clock value (`addClip`, the drop handler, `splitClip`) or the
overlay's id (`addTextClip`); nothing prevents that value from colliding
with an existing id. Under the assumption that the assigned id differs
from every id already in the store, each creation operation preserves
distinctness of the clip ids. -/
theorem creation_preserves_id_uniqueness (s : EditorState)
    (hnodup : (s.clips.map Clip.id).Nodup) :
    (∀ (now : Nat) (m : MediaItem), (∀ c ∈ s.clips, c.id ≠ now) →
      ((addClip now m s).clips.map Clip.id).Nodup) ∧
    (∀ (now : Nat) (m : MediaItem) (track : Track) (x : ℚ),
      (∀ c ∈ s.clips, c.id ≠ now) →
      ((dropClip now m track x s).clips.map Clip.id).Nodup) ∧
    (∀ o : Overlay, (∀ c ∈ s.clips, c.id ≠ o.id) →
      ((addTextClip o s).clips.map Clip.id).Nodup) ∧
    (∀ now : Nat, (∀ c ∈ s.clips, c.id ≠ now) →
      ((splitClip now s).clips.map Clip.id).Nodup) := by
  have fresh : ∀ n : Nat, (∀ c ∈ s.clips, c.id ≠ n) → n ∉ s.clips.map Clip.id := by
    intro n hn hmem
    obtain ⟨c, hc, hce⟩ := List.mem_map.mp hmem
    exact hn c hc hce
  refine ⟨?_, ?_, ?_, ?_⟩
  · intro now m hf
    exact nodup_push s.clips _ hnodup (fresh now hf)
  · intro now m track x hf
    exact nodup_push s.clips _ hnodup (fresh now hf)
  · intro o hf
    exact nodup_push s.clips _ hnodup (fresh o.id hf)
  · intro now hf
    rcases splitClip_clips_cases now s with h | ⟨i, clip, hget, h⟩
    · rw [h]; exact hnodup
    · rw [h]
      have hmapset :
          (s.clips.set i
              { clip with duration := s.currentTime - clip.startTime }).map Clip.id
            = s.clips.map Clip.id := by
        rw [List.map_set]
        exact set_getElem_self _ i clip.id
          (by rw [List.getElem?_map, hget]; rfl)
      apply nodup_push
      · rw [hmapset]; exact hnodup
      · show now ∉ _
        rw [hmapset]
        exact fresh now hf

theorem creation_preserves_id_uniqueness_witness :
    ((addClip 100 sampleMedia initialState).clips.map Clip.id).Nodup :=
  (creation_preserves_id_uniqueness initialState (by decide)).1 100 sampleMedia
    (by intro c hc; simp [initialState] at hc)
